import Mathlib

/-!
Verification of the expired-sstable reclamation tool (`expired_sstables.py`).

The definitions below are a shallow embedding of the Python source:
pure functions become Lean functions on `Int`/`List`, fatal `sys.exit`
calls become `Except` errors, and the per-file decode pipeline is
modelled by explicit per-file outcomes threaded through the same
control flow as the script.
-/

/-- The sentinel deletion time (`2147483647`) marking a never-expiring sstable. -/
def deletion_time_for_never_expiring_sstable : Int := 2147483647

/-- `inclusive_range`: an immutable pair of endpoints of a closed interval. -/
structure inclusive_range where
  first : Int
  last : Int
deriving DecidableEq, Repr

/-- `inclusive_range.overlaps`: the source computes
`self.first <= other.first <= self.last or other.first <= self.first <= other.last`. -/
def inclusive_range.overlaps (a b : inclusive_range) : Bool :=
  (decide (a.first ≤ b.first) && decide (b.first ≤ a.last)) ||
  (decide (b.first ≤ a.first) && decide (a.first ≤ b.last))

/-- One sstable descriptor, as assembled by `process_sstables` from decoded
metadata: timestamps in microseconds, deletion time in seconds, tokens signed
64-bit partitioner tokens. -/
structure sstable where
  name : String
  min_timestamp : Int
  max_timestamp : Int
  max_deletion_time : Int
  first_token : Int
  last_token : Int
deriving DecidableEq, Repr

/-- `sstable.token_range()` from the source. -/
def sstable.token_range (s : sstable) : inclusive_range :=
  ⟨s.first_token, s.last_token⟩

/-- `sstable.overlaps_in_token(other_range)` from the source. -/
def sstable.overlaps_in_token (s : sstable) (other_range : inclusive_range) : Bool :=
  (inclusive_range.mk s.first_token s.last_token).overlaps other_range

/-- `sstable.overlaps_in_timestamp(other)` from the source. -/
def sstable.overlaps_in_timestamp (s other : sstable) : Bool :=
  (inclusive_range.mk s.min_timestamp s.max_timestamp).overlaps
    (inclusive_range.mk other.min_timestamp other.max_timestamp)

/-- `sane_timestamp(ts, min_ts, max_ts)` from the source. -/
def sane_timestamp (ts min_ts max_ts : Int) : Bool :=
  decide (ts ≥ min_ts) && decide (ts ≤ max_ts)

/-- `sanity_check_sstable_metadata(sst, now_in_seconds)`: each `exit(...)` call
in the source is modelled as an `Except.error` carrying the reason string; the
`now_in_seconds` argument is unused by the source body and kept for fidelity. -/
def sanity_check_sstable_metadata (sst : sstable) (now_in_seconds : Int) : Except String Unit :=
  if sst.min_timestamp = 0 then .error "min_timestamp == 0"
  else if sst.max_timestamp = 0 then .error "max_timestamp == 0"
  else if sst.max_deletion_time = 0 then .error "max_deletion_time == 0"
  else if sst.max_timestamp < sst.min_timestamp then .error "sst.max_timestamp < sst.min_timestamp"
  else if ¬ sane_timestamp sst.max_deletion_time 1500000000
      deletion_time_for_never_expiring_sstable = true then .error "max_deletion_time not sane"
  else if ¬ sane_timestamp sst.min_timestamp 1500000000000000 2000000000000000 = true then
    .error "min_timestamp not sane"
  else if ¬ sane_timestamp sst.max_timestamp 1500000000000000 2000000000000000 = true then
    .error "max_timestamp not sane"
  else .ok ()

/-- `INT64_MAX = 2 ** 63 - 1`. -/
def INT64_MAX : Int := 2 ^ 63 - 1

/-- `INT64_MIN = -INT64_MAX - 1`. -/
def INT64_MIN : Int := -INT64_MAX - 1

/-- `INT64_OVF_OFFSET = INT64_MAX + 1`. -/
def INT64_OVF_OFFSET : Int := INT64_MAX + 1

/-- `INT64_OVF_DIV = 2 * INT64_OVF_OFFSET`. -/
def INT64_OVF_DIV : Int := 2 * INT64_OVF_OFFSET

namespace murmur3_token

/-- `murmur3_token.truncate_int64(x)`: Python `%` on a positive modulus is
non-negative remainder, i.e. `Int.emod`. -/
def truncate_int64 (x : Int) : Int :=
  if ¬ (INT64_MIN ≤ x ∧ x ≤ INT64_MAX) then
    Int.emod (x + INT64_OVF_OFFSET) INT64_OVF_DIV - INT64_OVF_OFFSET
  else x

end murmur3_token

/-- `timestamp_in_seconds(timestamp) = int(round(timestamp / 1000000))`.
Python `round` rounds half to even. Over the sanity-checked timestamp window
`[1.5e15, 2e15]` the float quotient `timestamp / 1000000` differs from the
exact rational by less than `2^-21`, while a non-half fractional part is at
least `10^-6` away from one half, so rounding the float agrees with rounding
the exact rational; this definition computes the latter (half to even). -/
def timestamp_in_seconds (timestamp : Int) : Int :=
  let q := Int.ediv timestamp 1000000
  let r := Int.emod timestamp 1000000
  if r < 500000 then q
  else if 500000 < r then q + 1
  else if Int.emod q 2 = 0 then q else q + 1

/-- `ignores_max_deletion_time(sstable, ignore_max_deletion_time)` from the source. -/
def ignores_max_deletion_time (s : sstable) (ignore_max_deletion_time : Bool) : Bool :=
  ignore_max_deletion_time && decide (s.max_deletion_time = deletion_time_for_never_expiring_sstable)

/-- `calculate_max_deletion_time(sstable, default_ttl)` from the source. -/
def calculate_max_deletion_time (s : sstable) (default_ttl : Int) : Int :=
  timestamp_in_seconds s.max_timestamp + default_ttl

/-- `is_sstable_expired(sstable, gc_before_in_sec, default_ttl, ignore_max_deletion_time)`
from the source (the informational `print` is dropped). -/
def is_sstable_expired (s : sstable) (gc_before_in_sec default_ttl : Int)
    (ignore_max_deletion_time : Bool) : Bool :=
  let max_deletion_time := s.max_deletion_time
  let max_deletion_time :=
    if ignores_max_deletion_time s ignore_max_deletion_time then
      calculate_max_deletion_time s default_ttl
    else max_deletion_time
  decide (max_deletion_time < gc_before_in_sec)

/-- `find_expired_sstables` from the source: partition by `is_sstable_expired`. -/
def find_expired_sstables (sstables : List sstable) (gc_before_in_sec default_ttl : Int)
    (ignore_max_deletion_time : Bool) : List sstable × List sstable :=
  sstables.foldl
    (fun acc s =>
      if is_sstable_expired s gc_before_in_sec default_ttl ignore_max_deletion_time then
        (acc.1 ++ [s], acc.2)
      else (acc.1, acc.2 ++ [s]))
    ([], [])

/-- `get_unified_token_range(sstables)`: `min`/`max` with a key function reduce,
after projecting the key, to folds of `min`/`max` over the projections; on an
empty list the source raises `ValueError`, modelled as `none`. -/
def get_unified_token_range (sstables : List sstable) : Option inclusive_range :=
  match sstables with
  | [] => none
  | s :: rest =>
    some ⟨rest.foldl (fun a t => min a t.first_token) s.first_token,
          rest.foldl (fun a t => max a t.last_token) s.last_token⟩

/-- The body of the inner loop of `find_blockers_for_expired_sstables`: the
state is the `found_blocker` flag together with the `blocked_expired_ssts`
accumulator; the guard appends `expired_sst` to the blocked list only once. -/
def blockers_inner_step (expired_sst : sstable) (st : Bool × List sstable) (c : sstable) :
    Bool × List sstable :=
  if expired_sst.overlaps_in_timestamp c then
    (true, if st.1 then st.2 else st.2 ++ [expired_sst])
  else st

/-- The body of the outer loop of `find_blockers_for_expired_sstables`: run the
inner loop over the overlapping non-expired sstables, then append `expired_sst`
to `non_blocked_expired_ssts` when no blocker was found. -/
def blockers_outer_step (overlapping_non_expired_ssts : List sstable)
    (acc : List sstable × List sstable) (expired_sst : sstable) :
    List sstable × List sstable :=
  let r := overlapping_non_expired_ssts.foldl (blockers_inner_step expired_sst) (false, acc.1)
  if r.1 then (r.2, acc.2) else (r.2, acc.2 ++ [expired_sst])

/-- `find_blockers_for_expired_sstables(expired_sstables, non_expired_sstables)`:
the two nested loops of the source as folds over the step functions above
(the `print` calls are dropped). -/
def find_blockers_for_expired_sstables (expired_sstables non_expired_sstables : List sstable) :
    Option (List sstable × List sstable) :=
  match get_unified_token_range expired_sstables with
  | none => none
  | some expired_ssts_token_range =>
    let overlapping_non_expired_ssts :=
      non_expired_sstables.filter (fun s => s.overlaps_in_token expired_ssts_token_range)
    some (expired_sstables.foldl (blockers_outer_step overlapping_non_expired_ssts) ([], []))

/-- The Python error taxonomy relevant to the decode pipeline: `sys.exit`
raises `SystemExit`, which derives from `BaseException` but not from
`Exception`, so an `except Exception` clause does not catch it; every other
error raised during decoding derives from `Exception`. -/
inductive py_error where
  | systemExit (msg : String)
  | exception (msg : String)
deriving Repr

/-- The per-file-group raw inputs of the decode pipeline: the outcome of the
byte-level reads of the Summary component (`tokens_read` yields the two
tokens on success), the outcome of the byte-level reads of the Statistics
component (`stats_read` yields min/max timestamp and max deletion time on
success), and whether the Statistics directory contained a type-2 (Stats)
entry. An `Except.error` holds the message of the raised `Exception`. -/
structure file_group_input where
  name : String
  tokens_read : Except String (Int × Int)
  stats_read : Except String (Int × Int × Int)
  found_stats : Bool

/-- `sstable_metadata_processor.get_sstable_tokens`: the source wraps all the
reads in `try`/`except Exception`, and the handler runs `print(e)` followed by
`sys.exit(1)` — so a read failure becomes a `SystemExit`. -/
def get_sstable_tokens (inp : file_group_input) : Except py_error (Int × Int) :=
  match inp.tokens_read with
  | .ok v => .ok v
  | .error e => .error (.systemExit e)

/-- `sstable_metadata_processor.init_stats_metadata`: a read failure hits the
`except Exception` handler, which runs `print(e)` then `sys.exit(1)`; after the
`try` block, a missing type-2 (Stats) directory entry runs
`sys.exit("Unable to retrieve Stats metadata from ...")`. Both are `SystemExit`. -/
def init_stats_metadata (inp : file_group_input) : Except py_error (Int × Int × Int) :=
  match inp.stats_read with
  | .error e => .error (.systemExit e)
  | .ok v =>
    if inp.found_stats then .ok v
    else .error (.systemExit ("Unable to retrieve Stats metadata from " ++ inp.name))

/-- `sstable_metadata_processor.__init__`: decode the Summary component into
the two tokens, then the Statistics component into the stats fields. -/
def sstable_metadata_processor (inp : file_group_input) : Except py_error sstable := do
  let (first_token, last_token) ← get_sstable_tokens inp
  let (min_ts, max_ts, mdt) ← init_stats_metadata inp
  return ⟨inp.name, min_ts, max_ts, mdt, first_token, last_token⟩

/-- The body of the per-entry loop of `process_sstables`: it wraps decode and
sanity check in `try`/`except Exception`. A `SystemExit` raised inside the body
is not caught by `except Exception` and aborts the whole run; a caught
`Exception` makes the handler call `sys.exit("Unable to retrieve metadata
from ...")`, also aborting the run; `sanity_check_sstable_metadata`'s failures
are `sys.exit` calls (via `exit(sst, reason)`), modelled here by mapping its
error to a `SystemExit`. -/
def process_sstables_step (now_in_seconds : Int) (acc : List sstable)
    (inp : file_group_input) : Except py_error (List sstable) :=
  match sstable_metadata_processor inp with
  | .error (.systemExit m) => .error (.systemExit m)
  | .error (.exception m) =>
    .error (.systemExit ("Unable to retrieve metadata from " ++ inp.name ++ " due to: " ++ m))
  | .ok sst =>
    match sanity_check_sstable_metadata sst now_in_seconds with
    | .error m =>
      .error (.systemExit
        ("Exiting due to bad metadata retrieved from SSTable " ++ sst.name ++ ", reason: " ++ m))
    | .ok _ => .ok (acc ++ [sst])

/-- The per-entry loop of `process_sstables`: an error raised by the step
propagates (aborting the run), otherwise the loop continues with the grown
descriptor accumulator. -/
def process_sstables_go (now_in_seconds : Int) (acc : List sstable) :
    List file_group_input → Except py_error (List sstable)
  | [] => .ok acc
  | inp :: rest =>
    match process_sstables_step now_in_seconds acc inp with
    | .error e => .error e
    | .ok acc' => process_sstables_go now_in_seconds acc' rest

/-- `process_sstables(table_path, now_in_seconds)`: loop over the discovered
file groups, starting from an empty descriptor list. -/
def process_sstables (entries : List file_group_input) (now_in_seconds : Int) :
    Except py_error (List sstable) :=
  process_sstables_go now_in_seconds [] entries

/-- Stated from claim C2's words: `effective_deletion_time(d)` is
`d.max_deletion_time`, except when that equals the sentinel `2147483647` and
the override flag is set, in which case it is
`round(d.max_timestamp / 1_000_000) + default_ttl`. -/
def effective_deletion_time (s : sstable) (default_ttl : Int)
    (ignore_max_deletion_time : Bool) : Int :=
  if s.max_deletion_time = 2147483647 ∧ ignore_max_deletion_time = true then
    timestamp_in_seconds s.max_timestamp + default_ttl
  else s.max_deletion_time

/-- The blocked test of the resolver: some candidate's timestamp range
overlaps the expired sstable's timestamp range. -/
def blocked_by_some_candidate (candidates : List sstable) (e : sstable) : Bool :=
  candidates.any (fun c => e.overlaps_in_timestamp c)

/-- The property claim C1 states of the blocker resolver: the token envelope U
is the inclusive range from the minimum `first_token` to the maximum
`last_token` over the expired set, candidates are the non-expired sstables
whose token range overlaps U, and the returned lists partition the expired set
with membership in the blocked list decided by a candidate whose timestamp
range overlaps the expired sstable's. -/
def blocker_resolver_spec (E L : List sstable) : Prop :=
  ∃ U B N, get_unified_token_range E = some U
    ∧ (∀ e ∈ E, U.first ≤ e.first_token ∧ e.last_token ≤ U.last)
    ∧ (∃ e ∈ E, U.first = e.first_token)
    ∧ (∃ e ∈ E, U.last = e.last_token)
    ∧ find_blockers_for_expired_sstables E L = some (B, N)
    ∧ (∀ e, e ∈ B ↔ e ∈ E ∧
        ∃ c ∈ L, c.overlaps_in_token U = true ∧ c.overlaps_in_timestamp e = true)
    ∧ (∀ e, e ∈ N ↔ e ∈ E ∧
        ¬ ∃ c ∈ L, c.overlaps_in_token U = true ∧ c.overlaps_in_timestamp e = true)
    ∧ (∀ e, B.count e + N.count e = E.count e)

/-- A file group whose Summary-component reads fail with a `struct.error`
exception (a field read failure), while its Statistics component is fine. -/
def failing_group : file_group_input :=
  { name := "la-1-big-TOC.txt"
    tokens_read := .error "unpack requires a buffer of 4 bytes, got 0"
    stats_read := .ok (1500000000000001, 1500000000000002, 1500000001)
    found_stats := true }

/-- A file group whose components decode without any failure. -/
def healthy_group : file_group_input :=
  { name := "la-2-big-TOC.txt"
    tokens_read := .ok (3, 7)
    stats_read := .ok (1500000000000001, 1500000000000002, 1500000001)
    found_stats := true }

lemma overlaps_comm (a b : inclusive_range) : a.overlaps b = b.overlaps a := by
  unfold inclusive_range.overlaps
  exact Bool.or_comm _ _

lemma overlaps_in_timestamp_comm (a b : sstable) :
    a.overlaps_in_timestamp b = b.overlaps_in_timestamp a := by
  unfold sstable.overlaps_in_timestamp
  exact overlaps_comm _ _

lemma blockers_inner_found (e : sstable) (cands : List sstable) (l : List sstable) :
    cands.foldl (blockers_inner_step e) (true, l) = (true, l) := by
  induction cands with
  | nil => rfl
  | cons c cs ih =>
    by_cases h : e.overlaps_in_timestamp c <;>
      simp [List.foldl_cons, blockers_inner_step, h, ih]

lemma blockers_inner_eq (e : sstable) (cands : List sstable) (l : List sstable) :
    cands.foldl (blockers_inner_step e) (false, l)
      = (blocked_by_some_candidate cands e,
         if blocked_by_some_candidate cands e then l ++ [e] else l) := by
  induction cands with
  | nil => simp [blocked_by_some_candidate]
  | cons c cs ih =>
    by_cases h : e.overlaps_in_timestamp c
    · simp [List.foldl_cons, blockers_inner_step, h, blocked_by_some_candidate,
        blockers_inner_found]
    · simp [List.foldl_cons, blockers_inner_step, h, blocked_by_some_candidate] at ih ⊢
      exact ih

lemma blockers_outer_eq (cands : List sstable) (E : List sstable) :
    ∀ (b n : List sstable),
      E.foldl (blockers_outer_step cands) (b, n)
        = (b ++ E.filter (fun e => blocked_by_some_candidate cands e),
           n ++ E.filter (fun e => ! blocked_by_some_candidate cands e)) := by
  induction E with
  | nil => intro b n; simp
  | cons e E' ih =>
    intro b n
    by_cases h : blocked_by_some_candidate cands e
    · simp only [List.foldl_cons, blockers_outer_step, blockers_inner_eq, h, if_true]
      rw [ih]
      simp [List.filter_cons, h]
    · simp only [List.foldl_cons, blockers_outer_step, blockers_inner_eq, h, if_false]
      rw [ih]
      simp [List.filter_cons, h]

lemma find_blockers_eq (E L : List sstable) (U : inclusive_range)
    (hU : get_unified_token_range E = some U) :
    find_blockers_for_expired_sstables E L =
      some (E.filter (fun e => blocked_by_some_candidate
              (L.filter (fun s => s.overlaps_in_token U)) e),
            E.filter (fun e => ! blocked_by_some_candidate
              (L.filter (fun s => s.overlaps_in_token U)) e)) := by
  unfold find_blockers_for_expired_sstables
  rw [hU]
  simp only [blockers_outer_eq, List.nil_append]

lemma foldl_min_spec (f : sstable → Int) (l : List sstable) :
    ∀ (a : Int),
      l.foldl (fun m t => min m (f t)) a ≤ a
      ∧ (∀ x ∈ l, l.foldl (fun m t => min m (f t)) a ≤ f x)
      ∧ (l.foldl (fun m t => min m (f t)) a = a ∨
          ∃ x ∈ l, l.foldl (fun m t => min m (f t)) a = f x) := by
  induction l with
  | nil => intro a; simp
  | cons x xs ih =>
    intro a
    have h := ih (min a (f x))
    refine ⟨le_trans h.1 (min_le_left _ _), ?_, ?_⟩
    · intro y hy
      rcases List.mem_cons.mp hy with hy | hy
      · subst hy
        exact le_trans h.1 (min_le_right _ _)
      · exact h.2.1 y hy
    · rcases h.2.2 with h3 | ⟨y, hy, h3⟩
      · rcases min_choice a (f x) with hm | hm
        · exact Or.inl (by simp [List.foldl_cons]; omega)
        · exact Or.inr ⟨x, List.mem_cons_self _ _, by simp [List.foldl_cons]; omega⟩
      · exact Or.inr ⟨y, List.mem_cons_of_mem _ hy, by simpa [List.foldl_cons] using h3⟩

lemma foldl_max_spec (f : sstable → Int) (l : List sstable) :
    ∀ (a : Int),
      a ≤ l.foldl (fun m t => max m (f t)) a
      ∧ (∀ x ∈ l, f x ≤ l.foldl (fun m t => max m (f t)) a)
      ∧ (l.foldl (fun m t => max m (f t)) a = a ∨
          ∃ x ∈ l, l.foldl (fun m t => max m (f t)) a = f x) := by
  induction l with
  | nil => intro a; simp
  | cons x xs ih =>
    intro a
    have h := ih (max a (f x))
    refine ⟨le_trans (le_max_left _ _) h.1, ?_, ?_⟩
    · intro y hy
      rcases List.mem_cons.mp hy with hy | hy
      · subst hy
        exact le_trans (le_max_right _ _) h.1
      · exact h.2.1 y hy
    · rcases h.2.2 with h3 | ⟨y, hy, h3⟩
      · rcases max_choice a (f x) with hm | hm
        · exact Or.inl (by simp [List.foldl_cons]; omega)
        · exact Or.inr ⟨x, List.mem_cons_self _ _, by simp [List.foldl_cons]; omega⟩
      · exact Or.inr ⟨y, List.mem_cons_of_mem _ hy, by simpa [List.foldl_cons] using h3⟩

lemma count_filter_split (p : sstable → Bool) (E : List sstable) (e : sstable) :
    (E.filter p).count e + (E.filter (fun x => ! p x)).count e = E.count e := by
  induction E with
  | nil => simp
  | cons x xs ih =>
    by_cases hp : p x
    · rw [List.filter_cons_of_pos (by simp [hp]), List.filter_cons_of_neg (by simp [hp])]
      simp only [List.count_cons]
      omega
    · rw [List.filter_cons_of_neg (by simp [hp]), List.filter_cons_of_pos (by simp [hp])]
      simp only [List.count_cons]
      omega

lemma blocked_iff (L : List sstable) (U : inclusive_range) (e : sstable) :
    blocked_by_some_candidate (L.filter (fun s => s.overlaps_in_token U)) e = true
      ↔ ∃ c ∈ L, c.overlaps_in_token U = true ∧ c.overlaps_in_timestamp e = true := by
  unfold blocked_by_some_candidate
  simp only [List.any_eq_true, List.mem_filter]
  constructor
  · rintro ⟨c, ⟨hc, htok⟩, hts⟩
    exact ⟨c, hc, htok, by rw [overlaps_in_timestamp_comm]; exact hts⟩
  · rintro ⟨c, hc, htok, hts⟩
    exact ⟨c, ⟨hc, htok⟩, by rw [overlaps_in_timestamp_comm]; exact hts⟩

lemma not_blocked_iff (L : List sstable) (U : inclusive_range) (e : sstable) :
    (! blocked_by_some_candidate (L.filter (fun s => s.overlaps_in_token U)) e) = true
      ↔ ¬ ∃ c ∈ L, c.overlaps_in_token U = true ∧ c.overlaps_in_timestamp e = true := by
  rw [Bool.not_eq_true', ← Bool.not_eq_true]
  exact not_congr (blocked_iff L U e)

lemma process_step_error_is_system_exit (now_in_seconds : Int) (acc : List sstable)
    (inp : file_group_input) (e : py_error)
    (h : process_sstables_step now_in_seconds acc inp = .error e) :
    ∃ m, e = .systemExit m := by
  unfold process_sstables_step at h
  split at h
  · exact ⟨_, (Except.error.inj h).symm⟩
  · exact ⟨_, (Except.error.inj h).symm⟩
  · split at h
    · exact ⟨_, (Except.error.inj h).symm⟩
    · cases h

lemma process_go_aborts (now_in_seconds : Int) (inp : file_group_input) (msg : String)
    (hfail : sstable_metadata_processor inp = .error (.systemExit msg)) :
    ∀ (entries : List file_group_input), inp ∈ entries → ∀ (acc : List sstable),
      ∃ m, process_sstables_go now_in_seconds acc entries = .error (.systemExit m) := by
  intro entries
  induction entries with
  | nil => intro h; cases h
  | cons a rest ih =>
    intro hin acc
    rcases List.mem_cons.mp hin with h | h
    · subst h
      have hstep : process_sstables_step now_in_seconds acc inp = .error (.systemExit msg) := by
        unfold process_sstables_step
        rw [hfail]
      refine ⟨msg, ?_⟩
      unfold process_sstables_go
      rw [hstep]
    · rcases hstep : process_sstables_step now_in_seconds acc a with e | acc'
      · obtain ⟨m, rfl⟩ := process_step_error_is_system_exit _ _ _ _ hstep
        refine ⟨m, ?_⟩
        unfold process_sstables_go
        rw [hstep]
      · obtain ⟨m, hm⟩ := ih h acc'
        refine ⟨m, ?_⟩
        unfold process_sstables_go
        rw [hstep]
        exact hm

/-- Claim C1: for a non-empty expired set E and any non-expired set L, the
blocker resolver computes the token envelope U from the minimum `first_token`
to the maximum `last_token` over E, takes as candidates the non-expired
sstables whose token range overlaps U, and returns two lists partitioning E:
an expired sstable is blocked (exactly once) iff some candidate's timestamp
range overlaps its timestamp range, and non-blocked otherwise; the lists are
disjoint and their multiset union is E. -/
theorem C1_blocker_resolver_partitions (E L : List sstable) (hE : E ≠ []) :
    blocker_resolver_spec E L := by
  rcases E with _ | ⟨s, rest⟩
  · exact absurd rfl hE
  have hmin := foldl_min_spec (fun t => t.first_token) rest
  have hmax := foldl_max_spec (fun t => t.last_token) rest
  have hU : get_unified_token_range (s :: rest)
      = some ⟨rest.foldl (fun a t => min a t.first_token) s.first_token,
              rest.foldl (fun a t => max a t.last_token) s.last_token⟩ := rfl
  refine ⟨_, _, _, hU, ?_, ?_, ?_, find_blockers_eq _ L _ hU, ?_, ?_, ?_⟩
  · intro e he
    rcases List.mem_cons.mp he with he | he
    · subst he
      exact ⟨(hmin e.first_token).1, (hmax e.last_token).1⟩
    · exact ⟨(hmin s.first_token).2.1 e he, (hmax s.last_token).2.1 e he⟩
  · rcases (hmin s.first_token).2.2 with h | ⟨x, hx, h⟩
    · exact ⟨s, List.mem_cons_self _ _, h⟩
    · exact ⟨x, List.mem_cons_of_mem _ hx, h⟩
  · rcases (hmax s.last_token).2.2 with h | ⟨x, hx, h⟩
    · exact ⟨s, List.mem_cons_self _ _, h⟩
    · exact ⟨x, List.mem_cons_of_mem _ hx, h⟩
  · intro e
    rw [List.mem_filter, blocked_iff]
  · intro e
    rw [List.mem_filter, not_blocked_iff]
  · intro e
    exact count_filter_split _ _ e

/-- Witness for C1 at a concrete expired singleton and one candidate. -/
theorem C1_blocker_resolver_partitions_witness :
    blocker_resolver_spec [⟨"e0", 100, 200, 50, 0, 10⟩] [⟨"c0", 150, 160, 99, 5, 6⟩] :=
  C1_blocker_resolver_partitions _ _ (List.cons_ne_nil _ _)

/-- Claim C2: with `gc_before = now - gc_grace_period`, the classifier marks a
descriptor expired iff its effective deletion time (the stored
`max_deletion_time`, or `round(max_timestamp / 1e6) + default_ttl` when the
sentinel is stored and the override flag is set) is below `gc_before`. -/
theorem C2_expiration_classifier (s : sstable)
    (now_in_seconds gc_grace_seconds default_ttl : Int) (ignore_mdt : Bool) :
    is_sstable_expired s (now_in_seconds - gc_grace_seconds) default_ttl ignore_mdt = true
      ↔ effective_deletion_time s default_ttl ignore_mdt
          < now_in_seconds - gc_grace_seconds := by
  simp only [is_sstable_expired, effective_deletion_time, ignores_max_deletion_time,
    calculate_max_deletion_time, deletion_time_for_never_expiring_sstable,
    decide_eq_true_eq]
  cases ignore_mdt <;> by_cases h : s.max_deletion_time = 2147483647 <;> simp [h]

/-- Claim C3 as stated is false: a field read failure while decoding one file
group's Summary component makes the run abort via `sys.exit` (a `SystemExit`
the outer `except Exception` cannot catch), even though the next file group
decodes fine on its own; no remaining file group is decoded and the report
carries only the read error, not the originating filename. -/
theorem C3_counterexample :
    sstable_metadata_processor healthy_group
      = .ok ⟨"la-2-big-TOC.txt", 1500000000000001, 1500000000000002, 1500000001, 3, 7⟩
    ∧ process_sstables [healthy_group] 1700000000
      = .ok [⟨"la-2-big-TOC.txt", 1500000000000001, 1500000000000002, 1500000001, 3, 7⟩]
    ∧ process_sstables [failing_group, healthy_group] 1700000000
      = .error (.systemExit "unpack requires a buffer of 4 bytes, got 0") :=
  ⟨rfl, rfl, rfl⟩

/-- Claim C3 amended: when decoding a single file group fails, the failure is
raised as a `SystemExit` that the per-entry `except Exception` handler cannot
catch, so the whole run aborts with that `SystemExit` and no descriptor list is
produced — decoding of the remaining file groups does not continue. -/
theorem C3_decode_failure_aborts_run (entries : List file_group_input)
    (now_in_seconds : Int) (inp : file_group_input) (hin : inp ∈ entries) (msg : String)
    (hfail : sstable_metadata_processor inp = .error (.systemExit msg)) :
    ∃ m, process_sstables entries now_in_seconds = .error (.systemExit m) :=
  process_go_aborts now_in_seconds inp msg hfail entries hin []

/-- Witness for the amended C3 at the concrete two-group run. -/
theorem C3_decode_failure_aborts_run_witness :
    ∃ m, process_sstables [failing_group, healthy_group] 1700000000
      = .error (.systemExit m) :=
  C3_decode_failure_aborts_run [failing_group, healthy_group] 1700000000 failing_group
    (List.mem_cons_self _ _) "unpack requires a buffer of 4 bytes, got 0" rfl

/-- Claim C4: the sanity validator rejects a decoded descriptor iff at least
one of the listed conditions holds; in particular `max_timestamp <
min_timestamp` is always rejected, and a descriptor violating none of the
conditions passes. -/
theorem C4_sanity_validator (sst : sstable) (now_in_seconds : Int) :
    ((∃ msg, sanity_check_sstable_metadata sst now_in_seconds = .error msg) ↔
      (sst.min_timestamp = 0 ∨ sst.max_timestamp = 0 ∨ sst.max_deletion_time = 0
        ∨ sst.max_timestamp < sst.min_timestamp
        ∨ ¬ (1500000000 ≤ sst.max_deletion_time ∧ sst.max_deletion_time ≤ 2147483647)
        ∨ ¬ (1500000000000000 ≤ sst.min_timestamp ∧ sst.min_timestamp ≤ 2000000000000000)
        ∨ ¬ (1500000000000000 ≤ sst.max_timestamp ∧ sst.max_timestamp ≤ 2000000000000000)))
    ∧ (sst.max_timestamp < sst.min_timestamp →
        ∃ msg, sanity_check_sstable_metadata sst now_in_seconds = .error msg)
    ∧ (¬ (sst.min_timestamp = 0 ∨ sst.max_timestamp = 0 ∨ sst.max_deletion_time = 0
        ∨ sst.max_timestamp < sst.min_timestamp
        ∨ ¬ (1500000000 ≤ sst.max_deletion_time ∧ sst.max_deletion_time ≤ 2147483647)
        ∨ ¬ (1500000000000000 ≤ sst.min_timestamp ∧ sst.min_timestamp ≤ 2000000000000000)
        ∨ ¬ (1500000000000000 ≤ sst.max_timestamp ∧ sst.max_timestamp ≤ 2000000000000000)) →
        sanity_check_sstable_metadata sst now_in_seconds = .ok ()) := by
  simp only [sanity_check_sstable_metadata, sane_timestamp,
    deletion_time_for_never_expiring_sstable, ge_iff_le, Bool.and_eq_true, decide_eq_true_eq,
    not_and, not_le]
  split_ifs <;> simp_all

/-- Claim C5: on ranges with `first ≤ last`, `overlaps` is the closed-interval
intersection test; it is symmetric, reflexive, and matches the boundary
examples `[0,10]`/`[20,30]` (disjoint) and `[0,10]`/`[10,20]` (touching). -/
theorem C5_overlaps_closed_intervals (a b : inclusive_range)
    (ha : a.first ≤ a.last) (hb : b.first ≤ b.last) :
    (a.overlaps b = true ↔ (a.first ≤ b.last ∧ b.first ≤ a.last))
    ∧ a.overlaps b = b.overlaps a
    ∧ a.overlaps a = true
    ∧ (inclusive_range.mk 0 10).overlaps ⟨20, 30⟩ = false
    ∧ (inclusive_range.mk 0 10).overlaps ⟨10, 20⟩ = true := by
  refine ⟨?_, overlaps_comm a b, ?_, by decide, by decide⟩
  · simp only [inclusive_range.overlaps, Bool.or_eq_true, Bool.and_eq_true, decide_eq_true_eq]
    omega
  · simp only [inclusive_range.overlaps, Bool.or_eq_true, Bool.and_eq_true, decide_eq_true_eq]
    omega

/-- Witness for C5 at the concrete ranges `[0, 1]` and `[1, 2]`. -/
theorem C5_overlaps_closed_intervals_witness :
    ((inclusive_range.mk 0 1).overlaps ⟨1, 2⟩ = true
      ↔ ((0 : Int) ≤ 2 ∧ (1 : Int) ≤ 1))
    ∧ (inclusive_range.mk 0 1).overlaps ⟨1, 2⟩ = (inclusive_range.mk 1 2).overlaps ⟨0, 1⟩
    ∧ (inclusive_range.mk 0 1).overlaps ⟨0, 1⟩ = true
    ∧ (inclusive_range.mk 0 10).overlaps ⟨20, 30⟩ = false
    ∧ (inclusive_range.mk 0 10).overlaps ⟨10, 20⟩ = true :=
  C5_overlaps_closed_intervals ⟨0, 1⟩ ⟨1, 2⟩ (by decide) (by decide)

/-- Claim C6 as stated is false: the truncation does wrap with
`(x + 2^63) mod 2^64 - 2^63`, but the result does not always lie in
`[-2^63+1, 2^63-1]`: at the input `2^63` the result is exactly `-2^63`. -/
theorem C6_truncate_counterexample :
    murmur3_token.truncate_int64 (2 ^ 63) = -(2 ^ 63)
    ∧ ¬ (-(2 ^ 63) + 1 ≤ murmur3_token.truncate_int64 (2 ^ 63)) := by
  decide

/-- Claim C6 amended: for every integer x the truncation computes
`((x + 2^63) mod 2^64) - 2^63`, and the result lies in the full signed 64-bit
range `[-2^63, 2^63-1]` (the minimum `-2^63` can be produced). -/
theorem C6_truncate_formula_and_range (x : Int) :
    murmur3_token.truncate_int64 x = Int.emod (x + 2 ^ 63) (2 ^ 64) - 2 ^ 63
    ∧ -(2 ^ 63) ≤ murmur3_token.truncate_int64 x
    ∧ murmur3_token.truncate_int64 x ≤ 2 ^ 63 - 1 := by
  have e1 : (2 : Int) ^ 63 = INT64_OVF_OFFSET := by
    simp only [INT64_OVF_OFFSET, INT64_MAX]; norm_num
  have e2 : (2 : Int) ^ 64 = INT64_OVF_DIV := by
    simp only [INT64_OVF_DIV, INT64_OVF_OFFSET, INT64_MAX]; ring
  have hdiv : (0 : Int) < INT64_OVF_DIV := by
    simp only [INT64_OVF_DIV, INT64_OVF_OFFSET, INT64_MAX]; norm_num
  rw [e1, e2]
  by_cases h : INT64_MIN ≤ x ∧ x ≤ INT64_MAX
  · have hx : murmur3_token.truncate_int64 x = x := by
      simp [murmur3_token.truncate_int64, h]
    have hb : -INT64_OVF_OFFSET ≤ x ∧ x ≤ INT64_OVF_OFFSET - 1 := by
      simp only [INT64_MIN, INT64_MAX] at h
      simp only [INT64_OVF_OFFSET, INT64_MAX]
      omega
    have h1 : Int.emod (x + INT64_OVF_OFFSET) INT64_OVF_DIV = x + INT64_OVF_OFFSET := by
      apply Int.emod_eq_of_lt
      · omega
      · simp only [INT64_OVF_DIV] at *; omega
    rw [hx, h1]
    refine ⟨by ring, by omega, by omega⟩
  · have hx : murmur3_token.truncate_int64 x
        = Int.emod (x + INT64_OVF_OFFSET) INT64_OVF_DIV - INT64_OVF_OFFSET := by
      simp [murmur3_token.truncate_int64, h]
    have hnn : 0 ≤ Int.emod (x + INT64_OVF_OFFSET) INT64_OVF_DIV :=
      Int.emod_nonneg _ (by omega)
    have hlt : Int.emod (x + INT64_OVF_OFFSET) INT64_OVF_DIV < INT64_OVF_DIV :=
      Int.emod_lt_of_pos _ hdiv
    rw [hx]
    simp only [INT64_OVF_DIV, INT64_OVF_OFFSET, INT64_MAX] at *
    refine ⟨trivial, by omega, by omega⟩

/-- Claim C7: expiration is monotonic in `gc_before`: a descriptor expired at
`g1` stays expired at any `g2 ≥ g1`, for the same TTL and override flag. -/
theorem C7_expiration_monotone_in_gc_before (s : sstable) (g1 g2 default_ttl : Int)
    (ignore_mdt : Bool) (hg : g1 ≤ g2)
    (h : is_sstable_expired s g1 default_ttl ignore_mdt = true) :
    is_sstable_expired s g2 default_ttl ignore_mdt = true := by
  simp only [is_sstable_expired, decide_eq_true_eq] at h ⊢
  exact lt_of_lt_of_le h hg

/-- Witness for C7 at a concrete descriptor and `g1 = 10 ≤ g2 = 20`. -/
theorem C7_expiration_monotone_in_gc_before_witness :
    is_sstable_expired ⟨"sst", 1, 2, 3, 4, 5⟩ 20 7 false = true :=
  C7_expiration_monotone_in_gc_before ⟨"sst", 1, 2, 3, 4, 5⟩ 10 20 7 false
    (by decide) (by decide)

/-- Claim C8: blocker resolution is monotonic in the non-expired set: every
expired sstable blocked with candidates drawn from L stays blocked with
candidates drawn from any superset of L. -/
theorem C8_blockers_monotone_in_candidates (E L L2 : List sstable) (hE : E ≠ [])
    (hsub : ∀ x ∈ L, x ∈ L2) (B N B2 N2 : List sstable)
    (h1 : find_blockers_for_expired_sstables E L = some (B, N))
    (h2 : find_blockers_for_expired_sstables E L2 = some (B2, N2)) :
    ∀ e ∈ B, e ∈ B2 := by
  rcases E with _ | ⟨s, rest⟩
  · exact absurd rfl hE
  have hU : get_unified_token_range (s :: rest)
      = some ⟨rest.foldl (fun a t => min a t.first_token) s.first_token,
              rest.foldl (fun a t => max a t.last_token) s.last_token⟩ := rfl
  rw [find_blockers_eq _ L _ hU] at h1
  rw [find_blockers_eq _ L2 _ hU] at h2
  simp only [Option.some.injEq, Prod.mk.injEq] at h1 h2
  obtain ⟨hB, -⟩ := h1
  obtain ⟨hB2, -⟩ := h2
  subst hB; subst hB2
  intro e he
  rw [List.mem_filter] at he ⊢
  obtain ⟨heE, hp⟩ := he
  refine ⟨heE, ?_⟩
  rw [blocked_iff] at hp ⊢
  obtain ⟨c, hc, htok, hts⟩ := hp
  exact ⟨c, hsub c hc, htok, hts⟩

/-- Witness for C8 at a concrete expired singleton, `L = [c0] ⊆ L2 = [c0, c1]`:
the sstable blocked under L is still in the blocked list under L2. -/
theorem C8_blockers_monotone_in_candidates_witness :
    (⟨"e0", 100, 200, 50, 0, 10⟩ : sstable)
      ∈ ([⟨"e0", 100, 200, 50, 0, 10⟩] : List sstable) :=
  C8_blockers_monotone_in_candidates
    [⟨"e0", 100, 200, 50, 0, 10⟩]
    [⟨"c0", 150, 160, 99, 5, 6⟩]
    [⟨"c0", 150, 160, 99, 5, 6⟩, ⟨"c1", 300, 400, 99, 100, 200⟩]
    (List.cons_ne_nil _ _) (by simp)
    [⟨"e0", 100, 200, 50, 0, 10⟩] [] [⟨"e0", 100, 200, 50, 0, 10⟩] [] rfl rfl
    ⟨"e0", 100, 200, 50, 0, 10⟩ (List.mem_cons_self _ _)

/-- Claim C9: for a non-empty expired set, if the non-expired set is empty, or
more generally if no non-expired sstable's token range overlaps the expired
token envelope, the resolver returns an empty blocked list and every expired
sstable is non-blocked. -/
theorem C9_no_overlap_means_no_blockers (E : List sstable) (hE : E ≠ []) :
    find_blockers_for_expired_sstables E [] = some ([], E)
    ∧ ∀ (L : List sstable) (U : inclusive_range),
        get_unified_token_range E = some U →
        (∀ l ∈ L, l.overlaps_in_token U = false) →
        find_blockers_for_expired_sstables E L = some ([], E) := by
  rcases E with _ | ⟨s, rest⟩
  · exact absurd rfl hE
  have hU0 : get_unified_token_range (s :: rest)
      = some ⟨rest.foldl (fun a t => min a t.first_token) s.first_token,
              rest.foldl (fun a t => max a t.last_token) s.last_token⟩ := rfl
  constructor
  · rw [find_blockers_eq _ [] _ hU0]
    simp [blocked_by_some_candidate]
  · intro L U hU hno
    rw [find_blockers_eq _ L _ hU]
    have hcand : L.filter (fun t => t.overlaps_in_token U) = [] := by
      rw [List.filter_eq_nil_iff]
      intro a ha
      simp [hno a ha]
    rw [hcand]
    simp [blocked_by_some_candidate]

/-- Witness for C9 at a concrete expired singleton. -/
theorem C9_no_overlap_means_no_blockers_witness :
    find_blockers_for_expired_sstables [⟨"e0", 100, 200, 50, 0, 10⟩] []
        = some ([], [⟨"e0", 100, 200, 50, 0, 10⟩])
    ∧ ∀ (L : List sstable) (U : inclusive_range),
        get_unified_token_range [⟨"e0", 100, 200, 50, 0, 10⟩] = some U →
        (∀ l ∈ L, l.overlaps_in_token U = false) →
        find_blockers_for_expired_sstables [⟨"e0", 100, 200, 50, 0, 10⟩] L
          = some ([], [⟨"e0", 100, 200, 50, 0, 10⟩]) :=
  C9_no_overlap_means_no_blockers [⟨"e0", 100, 200, 50, 0, 10⟩] (List.cons_ne_nil _ _)

/-- Claim C10: with the override flag off — or whenever the stored
`max_deletion_time` is not the sentinel — the classification does not depend
on the default TTL. -/
theorem C10_ttl_noninterference (s : sstable) (gc t1 t2 : Int) (ignore_mdt : Bool)
    (h : ignore_mdt = false
      ∨ s.max_deletion_time ≠ deletion_time_for_never_expiring_sstable) :
    is_sstable_expired s gc t1 ignore_mdt = is_sstable_expired s gc t2 ignore_mdt := by
  simp only [is_sstable_expired, ignores_max_deletion_time]
  rcases h with h | h
  · subst h; simp
  · simp [h]

/-- Witness for C10 at a concrete descriptor with the flag off. -/
theorem C10_ttl_noninterference_witness :
    is_sstable_expired ⟨"sst", 1, 2, 3, 4, 5⟩ 10 1 false
      = is_sstable_expired ⟨"sst", 1, 2, 3, 4, 5⟩ 10 2 false :=
  C10_ttl_noninterference ⟨"sst", 1, 2, 3, 4, 5⟩ 10 1 2 false (Or.inl rfl)
